import Mathlib

/-
Verification of the well-metadata updater (wm_gui.py / wm2_gui.py).

The data-access layer and the reconciliation logic of the two GUI variants
are textually identical; the definitions below are a shallow embedding of
that shared core.  The Access database is modelled as an ordered list of
rows; SQL NULL is modelled by Option.none; Python string truthiness (None
and the empty string are falsy) is modelled by the function truthy; the
user dialogs and store faults are supplied by an explicit environment.
-/

namespace WMUpdater

/-- Columns expected in the Access table, in insert order; from the
TABLE_COLUMNS constant of wm_gui.py. -/
def TABLE_COLUMNS : List String :=
  ["ID", "GasIDREC", "PressuresIDREC", "Well Name", "Formation Producer",
   "Layer Producer", "Fault Block", "Pad Name", "Completions Technology",
   "Lateral Length", "Value Navigator UWI", "Composite name"]

/-- The autonumber column, never inserted or updated explicitly. -/
def AUTONUMBER_FIELD : String := "ID"

/-- Fields edited through dropdowns in the GUI. -/
def DROPDOWN_FIELDS : List String :=
  ["Formation Producer", "Layer Producer", "Fault Block", "Completions Technology"]

/-- Fields edited through plain text entries in the GUI. -/
def ENTRY_FIELDS : List String :=
  ["Well Name", "Lateral Length", "Value Navigator UWI", "Pad Name"]

/-- Editable fields in the grid: ENTRY_FIELDS + DROPDOWN_FIELDS. -/
def EDITABLE_FIELDS : List String := ENTRY_FIELDS ++ DROPDOWN_FIELDS

/-- Python truthiness of an optional string: None and the empty string are falsy. -/
def truthy : Option String → Bool
  | none => false
  | some s => !(s == "")

/-- Python truthiness of an optional record id: None and 0 are falsy. -/
def truthyId : Option Nat → Bool
  | none => false
  | some n => !(n == 0)

/-- One row of the table: the autonumber surrogate id together with a cell
value for each column name (none models SQL NULL). -/
structure Row where
  id : Nat
  cell : String → Option String

/-- An update or insert payload: a field dictionary from column names to
optional values, as built by the Python code (a value of none models a
Python None, stored as SQL NULL). -/
abbrev Payload : Type := List (String × Option String)

/-- Dictionary access payload.get(c, None): the value bound to the column,
or none when the key is absent. -/
def pget (p : Payload) (c : String) : Option String :=
  (List.lookup c p).getD none

/-- Dictionary membership test, as in the Python expression c in payload. -/
def phas (p : Payload) (c : String) : Bool :=
  (List.lookup c p).isSome

/-- Python str.strip(): remove leading and trailing whitespace.  Defined
structurally over the character list so that it evaluates by reduction. -/
def strip (s : String) : String :=
  String.mk (((s.data.dropWhile Char.isWhitespace).reverse.dropWhile
    Char.isWhitespace).reverse)

/-- compose_name from wm_gui.py: return the string Well - Layer - Tech built
from the three stripped inputs when all three are non-empty after
stripping, otherwise None. -/
def compose_name (well layer tech : Option String) : Option String :=
  if strip (well.getD "") = "" ∨ strip (layer.getD "") = "" ∨ strip (tech.getD "") = ""
  then none
  else some (strip (well.getD "") ++ " - " ++ strip (layer.getD "") ++ " - " ++
    strip (tech.getD ""))

/-- Columns update_record may set: every table column except the autonumber
ID and the two identifier columns, exactly as computed in update_record. -/
def updatable_cols : List String :=
  TABLE_COLUMNS.filter fun c =>
    !(c == AUTONUMBER_FIELD || c == "GasIDREC" || c == "PressuresIDREC")

/-- The column list of the SET clause built by update_record: the updatable
columns that are present in the payload, in table order. -/
def update_sets (payload : Payload) : List String :=
  updatable_cols.filter fun c => phas payload c

/-- update_record from wm_gui.py: UPDATE ... SET ... WHERE ID = rec_id over a
store snapshot.  When no updatable column is supplied the function returns
without executing any statement. -/
def update_record (store : List Row) (rec_id : Nat) (payload : Payload) : List Row :=
  if (update_sets payload).isEmpty then store
  else
    store.map fun r =>
      if r.id = rec_id then
        { r with cell := fun c => if c ∈ update_sets payload then pget payload c else r.cell c }
      else r

/-- Columns of the INSERT statement built by insert_records: all table
columns except the autonumber field. -/
def insert_cols : List String :=
  TABLE_COLUMNS.filter fun c => !(c == AUTONUMBER_FIELD)

/-- Largest surrogate id present in the store, used to model the autonumber
assignment performed by the database on insert. -/
def maxId (store : List Row) : Nat :=
  store.foldr (fun r m => max r.id m) 0

/-- insert_records from wm_gui.py: batch INSERT appending one row per
payload, taking for each insert column the payload value (row.get(c, None)),
with fresh autonumber ids assigned by the store. -/
def insert_records (store : List Row) (rows : List Payload) : List Row :=
  store ++ ((List.range rows.length).zip rows).map fun ir =>
    { id := maxId store + 1 + ir.1,
      cell := fun c => if c ∈ insert_cols then pget ir.2 c else none }

/-- The duplicate-name existence query of do_update: the number of store rows
whose Well Name column equals the given name. -/
def wellNameCount (store : List Row) (wn : String) : Nat :=
  (store.filter fun r => r.cell "Well Name" == some wn).length

/-- find_existing_id from wm_gui.py: return the ID of the first row matching
the provided identifiers, preferring a match on both GasIDREC and
PressuresIDREC when both are truthy, falling back to a single-column match
when only one is truthy, and returning None when neither is. -/
def find_existing_id (store : List Row) (gas_id pres_id : Option String) : Option Nat :=
  if truthy gas_id && truthy pres_id then
    (store.find? fun r =>
      r.cell "GasIDREC" == gas_id && r.cell "PressuresIDREC" == pres_id).map fun r => r.id
  else if truthy gas_id then
    (store.find? fun r => r.cell "GasIDREC" == gas_id).map fun r => r.id
  else if truthy pres_id then
    (store.find? fun r => r.cell "PressuresIDREC" == pres_id).map fun r => r.id
  else none

/-- Matching predicate written from the wording of the spec, for comparison
with find_existing_id: match on both columns when both components are given,
on the single given column when only one is given, and on nothing when
neither is given. -/
def specFindMatch (gas pres : Option String) (r : Row) : Bool :=
  match gas, pres with
  | some g, some p => r.cell "GasIDREC" == some g && r.cell "PressuresIDREC" == some p
  | some g, none => r.cell "GasIDREC" == some g
  | none, some p => r.cell "PressuresIDREC" == some p
  | none, none => false

/-- One pending row as it appears in the Current Wells view: the Treeview
item key (modelled by the surrogate id) and the identifier pair read from
its GasIDREC and PressuresIDREC cells. -/
structure PendingItem where
  iid : Nat
  pair : String × String
deriving DecidableEq, Repr

/-- The staging-relevant state of the App: the loaded snapshot, the visible
pending rows of the Current Wells view, and the Staging Registry consisting
of the ordered staged entries new_ids and the promoted pair set
_staged_pairs (modelled as a duplicate-free list). -/
structure AppState where
  df_current : List Row
  pendingView : List PendingItem
  new_ids : List (String × String)
  staged_pairs : List (String × String)

/-- A store row counts as pending when its Well Name is NULL or blank after
stripping, as in the mask computed by reload_all. -/
def isBlankWell (r : Row) : Bool :=
  match r.cell "Well Name" with
  | none => true
  | some s => strip s == ""

/-- The registry mutation of _toggle_item_checkbox when a pending row is
checked: if the pair is not yet in _staged_pairs, add it and append a staged
entry to new_ids; otherwise do nothing. -/
def stage_pair (pair : String × String) (s : AppState) : AppState :=
  if pair ∈ s.staged_pairs then s
  else { s with staged_pairs := pair :: s.staged_pairs, new_ids := s.new_ids ++ [pair] }

/-- The full pending branch of _toggle_item_checkbox on checking a pending
row: stage its identifier pair, then delete the row item from the Current
Wells view. -/
def toggle_check_pending (it : PendingItem) (s : AppState) : AppState :=
  let s1 := stage_pair it.pair s
  { s1 with pendingView := s1.pendingView.filter fun x => x.iid != it.iid }

/-- Outcome reported by reload_all: either the load error dialog or a
completed reload. -/
inductive ReloadOutcome
  | loadError
  | loaded
deriving DecidableEq, Repr

/-- reload_all from wm_gui.py, restricted to the staging-relevant state: a
failing load is caught and reported, leaving the state untouched; otherwise
the snapshot is replaced, the pending view is rebuilt from the rows with a
blank Well Name, and the Staging Registry is left as it was. -/
def reload_all (loadFails : Bool) (loaded : List Row) (s : AppState) :
    ReloadOutcome × AppState :=
  if loadFails then (.loadError, s)
  else
    (.loaded,
      { df_current := loaded,
        pendingView := (loaded.filter isBlankWell).map fun r =>
          { iid := r.id,
            pair := ((r.cell "GasIDREC").getD "", (r.cell "PressuresIDREC").getD "") },
        new_ids := s.new_ids,
        staged_pairs := s.staged_pairs })

/-- A store-level fault that is not caught inside the user action and would
surface as an uncaught Python exception. -/
inductive Fault
  | connectFault
  | dupQueryFault
  | findFault
deriving DecidableEq, Repr

/-- Environment of a user action: the store snapshot seen by the connection,
fault injection for each store operation, and the answer the user gives to
the duplicate-name dialog. -/
structure Env where
  store : List Row
  connectFails : Bool
  dupFails : String → Bool
  findFails : Option String → Option String → Bool
  updateFails : Nat → Bool
  insertFails : Bool
  askYes : String → Bool

/-- Reconciliation decision recorded for one selected row. -/
inductive Decision
  | dUpdate (recId : Nat)
  | dInsert
  | dSkip
deriving DecidableEq, Repr

/-- Store-visible events of a user action, in execution order. -/
inductive Ev
  | evDupQuery (wn : String)
  | evFindQuery (gas pres : Option String)
  | evClassified (gas pres : Option String) (d : Decision)
  | evUpdateExec (recId : Nat)
  | evInsertExec (n : Nat)
  | evCommit
deriving DecidableEq, Repr

/-- Outcome of do_update as reported to the user. -/
inductive DoOutcome
  | done (updated inserted skipped : Nat)
  | updateError (recId : Nat)
  | insertError (n : Nat)
  | nothingSelected
deriving DecidableEq, Repr

/-- Result of one run of do_update: the events issued against the store, the
resulting store contents, and either a reported outcome (errors caught by
the function body) or an uncaught fault. -/
structure DoStep where
  trace : List Ev
  store : List Row
  result : Except Fault DoOutcome

/-- Result of the duplicate-name guard at the top of the do_update loop
body. -/
inductive DupCheck
  | dupFault
  | dupSkip
  | dupProceed
deriving DecidableEq, Repr

/-- The duplicate well-name guard of do_update for one row: when the Well
Name value is truthy, run the COUNT query (which may fault) and, on a
positive count, ask the user whether to continue; a declined dialog skips
the row.  Returns the verdict together with the query events issued. -/
def dup_check (env : Env) (store : List Row) (wn : Option String) :
    DupCheck × List Ev :=
  if truthy wn then
    if env.dupFails (wn.getD "") then (.dupFault, [.evDupQuery (wn.getD "")])
    else if wellNameCount store (wn.getD "") > 0 && !env.askYes (wn.getD "") then
      (.dupSkip, [.evDupQuery (wn.getD "")])
    else (.dupProceed, [.evDupQuery (wn.getD "")])
  else (.dupProceed, [])

/-- The classification loop of do_update over the selected rows: per row, the
duplicate-name guard, then the identifier-pair lookup; a truthy ID means an
immediate single-row update (a failure is caught, reported and aborts), a
falsy one appends the row to the insert batch.  After the loop the batch is
inserted at most once (a failure is caught, reported and aborts) and the
transaction is committed. -/
def do_update_loop (env : Env) (rows : List Payload) (store : List Row)
    (updated skipped : Nat) (toInsert : List Payload) : DoStep :=
  match rows with
  | [] =>
      if toInsert.isEmpty then
        { trace := [.evCommit], store := store,
          result := .ok (.done updated 0 skipped) }
      else if env.insertFails then
        { trace := [.evInsertExec toInsert.length], store := store,
          result := .ok (.insertError toInsert.length) }
      else
        { trace := [.evInsertExec toInsert.length, .evCommit],
          store := insert_records store toInsert,
          result := .ok (.done updated toInsert.length skipped) }
  | r :: rest =>
      let gas := pget r "GasIDREC"
      let pres := pget r "PressuresIDREC"
      match dup_check env store (pget r "Well Name") with
      | (.dupFault, evs) =>
          { trace := evs, store := store, result := .error .dupQueryFault }
      | (.dupSkip, evs) =>
          let step := do_update_loop env rest store updated (skipped + 1) toInsert
          { step with trace := evs ++ .evClassified gas pres .dSkip :: step.trace }
      | (.dupProceed, evs) =>
          if env.findFails gas pres then
            { trace := evs ++ [.evFindQuery gas pres], store := store,
              result := .error .findFault }
          else
            let recOpt := find_existing_id store gas pres
            if truthyId recOpt then
              let recId := recOpt.getD 0
              if env.updateFails recId then
                { trace := evs ++ [.evFindQuery gas pres,
                    .evClassified gas pres (.dUpdate recId), .evUpdateExec recId],
                  store := store, result := .ok (.updateError recId) }
              else
                let step := do_update_loop env rest (update_record store recId r)
                  (updated + 1) skipped toInsert
                { step with trace := evs ++ .evFindQuery gas pres ::
                    .evClassified gas pres (.dUpdate recId) ::
                    .evUpdateExec recId :: step.trace }
            else
              let step := do_update_loop env rest store updated skipped (toInsert ++ [r])
              { step with trace := evs ++ .evFindQuery gas pres ::
                  .evClassified gas pres .dInsert :: step.trace }

/-- do_update from wm_gui.py over the selected row payloads: nothing selected
is reported without touching the store; a failing connection open is an
uncaught fault; otherwise the classification loop runs against the freshly
opened connection. -/
def do_update (env : Env) (rows : List Payload) : DoStep :=
  if rows.isEmpty then
    { trace := [], store := env.store, result := .ok .nothingSelected }
  else if env.connectFails then
    { trace := [], store := env.store, result := .error .connectFault }
  else
    do_update_loop env rows env.store 0 0 []

/-- The payload actually sent by save_checked_edits for one checked row: the
pending edits restricted to EDITABLE_FIELDS, with Composite name recomputed
from the edited (or, when unedited, currently displayed) Well Name, Layer
Producer and Completions Technology values and added to the payload only
when the recomputation yields a value. -/
def save_row_payload (payload : Payload) (treeWell treeLayer treeTech : String) :
    Payload :=
  let safe := payload.filter fun kv => EDITABLE_FIELDS.contains kv.1
  let wn := (List.lookup "Well Name" payload).getD (some treeWell)
  let lp := (List.lookup "Layer Producer" payload).getD (some treeLayer)
  let ct := (List.lookup "Completions Technology" payload).getD (some treeTech)
  match compose_name wn lp ct with
  | some comp => safe ++ [("Composite name", some comp)]
  | none => safe

/-- One checked row handed to save_checked_edits: the integer parse of its
Treeview item key, the identifier cells used for the fallback lookup, its
pending edits, and the currently displayed values of the three composite
inputs. -/
structure SaveItem where
  iidNat : Option Nat
  treeGas : String
  treePres : String
  payload : Payload
  treeWell : String
  treeLayer : String
  treeTech : String

/-- Outcome of save_checked_edits as reported to the user. -/
inductive SaveOutcome
  | done (updated failed : Nat)
  | updateError (recId : Nat)
deriving DecidableEq, Repr

/-- Result of one run of save_checked_edits. -/
structure SaveStep where
  store : List Row
  result : Except Fault SaveOutcome

/-- Record-id resolution of one checked row in save_checked_edits: the
integer item key when it parses, otherwise the identifier-pair lookup
against the store, which may fault uncaught. -/
def resolve_rec_id (env : Env) (store : List Row) (it : SaveItem) :
    Except Fault (Option Nat) :=
  match it.iidNat with
  | some n => .ok (some n)
  | none =>
      if env.findFails (some it.treeGas) (some it.treePres) then .error .findFault
      else .ok (find_existing_id store (some it.treeGas) (some it.treePres))

/-- The row loop of save_checked_edits: resolve the record id of each row; a
falsy id counts the row as failed and processing continues; otherwise the
row payload is applied by update_record, a failure being caught, reported
and aborting the loop. -/
def save_loop (env : Env) (items : List SaveItem) (store : List Row)
    (updated failed : Nat) : SaveStep :=
  match items with
  | [] => { store := store, result := .ok (.done updated failed) }
  | it :: rest =>
      match resolve_rec_id env store it with
      | .error f => { store := store, result := .error f }
      | .ok recOpt =>
          if truthyId recOpt then
            if env.updateFails (recOpt.getD 0) then
              { store := store, result := .ok (.updateError (recOpt.getD 0)) }
            else
              save_loop env rest
                (update_record store (recOpt.getD 0)
                  (save_row_payload it.payload it.treeWell it.treeLayer it.treeTech))
                (updated + 1) failed
          else
            save_loop env rest store updated (failed + 1)

/-- save_checked_edits from wm_gui.py over the checked rows carrying pending
edits: a failing connection open is an uncaught fault; otherwise the row
loop runs and the transaction is committed. -/
def save_checked_edits (env : Env) (items : List SaveItem) : SaveStep :=
  if env.connectFails then { store := env.store, result := .error .connectFault }
  else save_loop env items env.store 0 0

/-- The Python idiom value or None applied after stripping: the empty string
becomes None. -/
def orNone (s : String) : Option String :=
  if s = "" then none else some s

/-- The comp_var value maintained by the per-row _sync callback installed by
build_add_rows: the composite of the current Well Name, Layer Producer and
Completions Technology inputs, or the empty string when it is absent. -/
def comp_var_value (wname layer tech : String) : String :=
  (compose_name (some wname) (some layer) (some tech)).getD ""

/-- The payload built by do_update for one selected staged row: the
identifier pair, every entry and dropdown value stripped with the empty
string replaced by None, and finally the Composite name taken from comp_var,
again with the empty string replaced by None. -/
def add_row_payload (gas pres : Option String)
    (entries dropdowns : List (String × String)) (compVar : String) : Payload :=
  [("GasIDREC", gas), ("PressuresIDREC", pres)]
    ++ entries.map (fun cv => (cv.1, orNone (strip cv.2)))
    ++ dropdowns.map (fun cv => (cv.1, orNone (strip cv.2)))
    ++ [("Composite name", orNone compVar)]

/-- The disjointness invariant stated by the spec: no visible pending row of
the Current Wells view carries a pair tracked by the Staging Registry. -/
def pendingDisjoint (s : AppState) : Prop :=
  ∀ it ∈ s.pendingView, it.pair ∉ s.staged_pairs

/-- A fault-free environment over the given store snapshot: every store
operation succeeds and the user confirms every duplicate-name dialog. -/
def cleanEnv (store : List Row) : Env :=
  { store := store, connectFails := false, dupFails := fun _ => false,
    findFails := fun _ _ => false, updateFails := fun _ => false,
    insertFails := false, askYes := fun _ => true }

/-- Concrete row used by the witnesses: identifier data only. -/
def exRowA : Row :=
  { id := 1, cell := fun c => if c = "GasIDREC" then some "GA" else none }

/-- Concrete row used by the witnesses: identifier data only, id 2. -/
def exRowB : Row :=
  { id := 2, cell := fun c => if c = "PressuresIDREC" then some "PB" else none }

/-- Concrete payload that attempts to overwrite the GasIDREC column. -/
def exPayload : Payload :=
  [("GasIDREC", some "EVIL"), ("Well Name", some "W")]

/-- Concrete store row with a complete composite, used to exhibit the stale
composite kept by save_checked_edits. -/
def cRow : Row :=
  { id := 1,
    cell := fun c =>
      if c = "GasIDREC" then some "G1"
      else if c = "PressuresIDREC" then some "P1"
      else if c = "Well Name" then some "Old"
      else if c = "Layer Producer" then some "X"
      else if c = "Completions Technology" then some "Y"
      else if c = "Composite name" then some "Old - X - Y"
      else none }

/-- Concrete checked row whose pending edit clears the Well Name. -/
def cItem : SaveItem :=
  { iidNat := some 1, treeGas := "G1", treePres := "P1",
    payload := [("Well Name", none), ("Composite name", none)],
    treeWell := "", treeLayer := "X", treeTech := "Y" }

/-- Concrete pending store row: identifier pair present, Well Name NULL. -/
def pendingRow : Row :=
  { id := 7,
    cell := fun c =>
      if c = "GasIDREC" then some "G1"
      else if c = "PressuresIDREC" then some "P1"
      else none }

/-- Concrete app state showing one pending row and an empty registry. -/
def exInitState : AppState :=
  { df_current := [pendingRow],
    pendingView := [{ iid := 7, pair := ("G1", "P1") }],
    new_ids := [], staged_pairs := [] }

/-- The state after the user checks the pending row, staging its pair. -/
def exStagedState : AppState :=
  toggle_check_pending { iid := 7, pair := ("G1", "P1") } exInitState

/-- The state after a subsequent reload from the unchanged store. -/
def exReloadedState : AppState :=
  (reload_all false [pendingRow] exStagedState).2

/-- Concrete app state whose registry already holds one staged pair. -/
def exSyncedState : AppState :=
  { df_current := [], pendingView := [],
    new_ids := [("G1", "P1")], staged_pairs := [("G1", "P1")] }

/-- Environment whose identifier-pair lookups fail at the store level. -/
def faultyFindEnv : Env :=
  { cleanEnv [] with findFails := fun _ _ => true }

/-- Environment whose duplicate-name COUNT queries fail at the store level. -/
def faultyDupEnv : Env :=
  { cleanEnv [] with dupFails := fun _ => true }

/-- Concrete checked row resolved through the identifier-pair fallback. -/
def exFallbackItem : SaveItem :=
  { iidNat := none, treeGas := "G1", treePres := "P1", payload := [],
    treeWell := "", treeLayer := "", treeTech := "" }

/-- Event classifier: the batched INSERT execution. -/
def isInsertEv : Ev → Bool
  | .evInsertExec _ => true
  | _ => false

/-- Event classifier: the record of a row classification. -/
def isClassifiedEv : Ev → Bool
  | .evClassified _ _ _ => true
  | _ => false

/-- The ordering property of one do_update trace: the batched insert occurs
at most once, and wherever it occurs, all k row classifications of the
action have already been recorded before it. -/
def InsAfter (tr : List Ev) (k : Nat) : Prop :=
  tr.countP isInsertEv ≤ 1 ∧
  ∀ n, Ev.evInsertExec n ∈ tr →
    (tr.countP isClassifiedEv = k ∧
     (tr.takeWhile fun x => !isInsertEv x).countP isClassifiedEv = k)

/-- Auxiliary: a string of length zero is the empty string. -/
theorem eq_empty_of_length_zero (s : String) (h : s.length = 0) : s = "" := by
  cases s with
  | mk data =>
      simp [String.length] at h
      simp [h]

/-- Auxiliary: appending to a non-empty string yields a non-empty string. -/
theorem append_ne_empty {a : String} (b : String) (h : a ≠ "") : a ++ b ≠ "" := by
  intro hc
  have hl : a.length + b.length = 0 := by
    simpa [String.length_append] using congrArg String.length hc
  exact h (eq_empty_of_length_zero a (Nat.eq_zero_of_add_eq_zero_right hl))

/-- Auxiliary: compose_name never returns the empty string. -/
theorem compose_name_ne_some_empty (well layer tech : Option String) :
    compose_name well layer tech ≠ some "" := by
  unfold compose_name
  split_ifs with h
  · simp
  · intro hc
    have hw : strip (well.getD "") ≠ "" := by tauto
    have h1 := append_ne_empty (b := " - ") hw
    have h2 := append_ne_empty (b := strip (layer.getD "")) h1
    have h3 := append_ne_empty (b := " - ") h2
    have h4 := append_ne_empty (b := strip (tech.getD "")) h3
    exact h4 (Option.some_injective _ hc)

/-- C1: for all (possibly null) well, layer and tech inputs, compose_name
returns the string joining the three stripped inputs with separators exactly
when all three are non-empty after stripping whitespace; otherwise it
returns no value, and it never returns the empty string. -/
theorem compose_name_total (well layer tech : Option String) :
    ((strip (well.getD "") ≠ "" ∧ strip (layer.getD "") ≠ "" ∧ strip (tech.getD "") ≠ "") →
        compose_name well layer tech
          = some (strip (well.getD "") ++ " - " ++ strip (layer.getD "") ++ " - " ++
              strip (tech.getD ""))) ∧
    ((strip (well.getD "") = "" ∨ strip (layer.getD "") = "" ∨ strip (tech.getD "") = "") →
        compose_name well layer tech = none) ∧
    compose_name well layer tech ≠ some "" := by
  refine ⟨fun h => ?_, fun h => ?_, compose_name_ne_some_empty well layer tech⟩
  · unfold compose_name
    exact if_neg (by tauto)
  · unfold compose_name
    exact if_pos h

/-- Witness for C1 at the trimming example of the spec. -/
theorem compose_name_total_witness :
    (strip " Well A " ≠ "" ∧ strip "Layer 2" ≠ "" ∧ strip "Tech X" ≠ "") ∧
    compose_name (some " Well A ") (some "Layer 2") (some "Tech X")
      = some (strip " Well A " ++ " - " ++ strip "Layer 2" ++ " - " ++ strip "Tech X") :=
  ⟨by decide,
   (compose_name_total (some " Well A ") (some "Layer 2") (some "Tech X")).1 (by decide)⟩

/-- Auxiliary: the SET clause of update_record never contains the
identifier columns. -/
theorem identifier_not_mem_update_sets (payload : Payload) :
    "GasIDREC" ∉ update_sets payload ∧ "PressuresIDREC" ∉ update_sets payload := by
  constructor <;> intro h <;> exact absurd (List.mem_filter.mp h).1 (by decide)

/-- Auxiliary: a column outside the SET clause is preserved by
update_record in every row of the store. -/
theorem update_record_preserves_col (store : List Row) (rec_id : Nat)
    (payload : Payload) (col : String) (h : col ∉ update_sets payload) (j : Nat) :
    ((update_record store rec_id payload)[j]?.map fun r => r.cell col)
      = (store[j]?.map fun r => r.cell col) := by
  unfold update_record
  split_ifs with hempty
  · rfl
  · rw [List.getElem?_map]
    cases hj : store[j]? with
    | none => rfl
    | some r =>
        simp only [Option.map]
        split_ifs with hid
        · simp [h]
        · rfl

/-- Auxiliary: update_record changes no surrogate id. -/
theorem update_record_preserves_id (store : List Row) (rec_id : Nat)
    (payload : Payload) (j : Nat) :
    ((update_record store rec_id payload)[j]?.map fun r => r.id)
      = (store[j]?.map fun r => r.id) := by
  unfold update_record
  split_ifs with hempty
  · rfl
  · rw [List.getElem?_map]
    cases hj : store[j]? with
    | none => rfl
    | some r =>
        simp only [Option.map]
        split_ifs with hid
        · rfl
        · rfl

/-- C2: update_record leaves the GasIDREC and PressuresIDREC cells of every
row unchanged, for all payloads including ones carrying values for those
columns; the surrogate id column is likewise untouched, and rows whose id
differs from the targeted id are left completely unchanged. -/
theorem update_record_preserves_identifier_cols (store : List Row) (rec_id : Nat)
    (payload : Payload) (j : Nat) :
    ((update_record store rec_id payload)[j]?.map fun r => r.cell "GasIDREC")
        = (store[j]?.map fun r => r.cell "GasIDREC") ∧
    ((update_record store rec_id payload)[j]?.map fun r => r.cell "PressuresIDREC")
        = (store[j]?.map fun r => r.cell "PressuresIDREC") ∧
    ((update_record store rec_id payload)[j]?.map fun r => r.id)
        = (store[j]?.map fun r => r.id) ∧
    (∀ r, store[j]? = some r → r.id ≠ rec_id →
        (update_record store rec_id payload)[j]? = some r) := by
  refine ⟨update_record_preserves_col store rec_id payload "GasIDREC"
      (identifier_not_mem_update_sets payload).1 j,
    update_record_preserves_col store rec_id payload "PressuresIDREC"
      (identifier_not_mem_update_sets payload).2 j,
    update_record_preserves_id store rec_id payload j,
    fun r hr hne => ?_⟩
  unfold update_record
  split_ifs with hempty
  · exact hr
  · rw [List.getElem?_map, hr]
    simp [hne]

/-- Witness for C2: the second row of a two-row store is untouched when the
first is updated with a payload that attempts to set GasIDREC. -/
theorem update_record_preserves_identifier_cols_witness :
    ([exRowA, exRowB][1]? = some exRowB ∧ exRowB.id ≠ 1) ∧
    (update_record [exRowA, exRowB] 1 exPayload)[1]? = some exRowB :=
  ⟨⟨rfl, by decide⟩,
   (update_record_preserves_identifier_cols [exRowA, exRowB] 1 exPayload 1).2.2.2
     exRowB rfl (by decide)⟩

/-- Auxiliary: find? returns the head of the filtered list. -/
theorem find_eq_head_filter {α : Type} (p : α → Bool) (l : List α) :
    l.find? p = (l.filter p).head? := by
  induction l with
  | nil => rfl
  | cons a l ih =>
      cases h : p a with
      | true =>
          rw [List.find?_cons_of_pos l h, List.filter_cons, if_pos h]
          rfl
      | false =>
          rw [List.find?_cons_of_neg l (by simp [h]), List.filter_cons, if_neg (by simp [h])]
          exact ih

/-- C7: on inputs that are each either absent or a non-empty string,
find_existing_id returns the id of the first store row (in store order)
satisfying the spec matching predicate: both columns must match when both
components are given, the single given column must match when only one is
given, and nothing matches when neither is given. -/
theorem find_existing_id_matches_spec (store : List Row) (gas pres : Option String)
    (hg : gas = none ∨ ∃ s, gas = some s ∧ s ≠ "")
    (hp : pres = none ∨ ∃ s, pres = some s ∧ s ≠ "") :
    find_existing_id store gas pres
      = ((store.filter (specFindMatch gas pres)).head?).map fun r => r.id := by
  rcases hg with rfl | ⟨g, rfl, hgne⟩ <;> rcases hp with rfl | ⟨p, rfl, hpne⟩
  · have hnil : store.filter (specFindMatch none none) = [] := by
      induction store with
      | nil => rfl
      | cons r l ih =>
          rw [List.filter_cons]
          simpa [show (specFindMatch none none r) = false from rfl] using ih
    simp [find_existing_id, truthy, hnil]
  · have ht : truthy (some p) = true := by simp [truthy, hpne]
    unfold find_existing_id
    rw [show truthy (none : Option String) = false from rfl, ht]
    simp only [Bool.false_and, Bool.false_eq_true, if_false]
    rw [find_eq_head_filter]
    rfl
  · have ht : truthy (some g) = true := by simp [truthy, hgne]
    unfold find_existing_id
    rw [ht, show truthy (none : Option String) = false from rfl]
    simp only [Bool.and_false, Bool.false_eq_true, if_false, if_true]
    rw [find_eq_head_filter]
    rfl
  · have htg : truthy (some g) = true := by simp [truthy, hgne]
    have htp : truthy (some p) = true := by simp [truthy, hpne]
    unfold find_existing_id
    rw [htg, htp]
    simp only [Bool.and_self, if_true]
    rw [find_eq_head_filter]
    rfl

/-- Witness for C7 on a two-row store queried by gas id only. -/
theorem find_existing_id_matches_spec_witness :
    ((some "GA" = none ∨ ∃ s, some "GA" = some s ∧ s ≠ "") ∧
     ((none : Option String) = none ∨ ∃ s, (none : Option String) = some s ∧ s ≠ "")) ∧
    find_existing_id [exRowB, exRowA] (some "GA") none
      = (([exRowB, exRowA].filter (specFindMatch (some "GA") none)).head?).map fun r => r.id :=
  ⟨⟨Or.inr ⟨"GA", rfl, by decide⟩, Or.inl rfl⟩,
   find_existing_id_matches_spec [exRowB, exRowA] (some "GA") none
     (Or.inr ⟨"GA", rfl, by decide⟩) (Or.inl rfl)⟩

/-- C10: find_existing_id treats an empty-string identifier exactly like a
missing one, and when both components are empty or missing it returns
nothing, independently of the store contents. -/
theorem empty_identifier_treated_as_missing (store store2 : List Row)
    (gas pres : Option String) :
    find_existing_id store (some "") pres = find_existing_id store none pres ∧
    find_existing_id store gas (some "") = find_existing_id store gas none ∧
    (truthy gas = false → truthy pres = false →
      find_existing_id store gas pres = none ∧
      find_existing_id store gas pres = find_existing_id store2 gas pres) := by
  have h1 : truthy (some "") = false := rfl
  have h2 : truthy (none : Option String) = false := rfl
  refine ⟨?_, ?_, fun hg hp => ⟨?_, ?_⟩⟩
  · unfold find_existing_id
    rw [h1, h2]
    simp
  · unfold find_existing_id
    rw [h1, h2]
    simp
  · unfold find_existing_id
    rw [hg, hp]
    simp
  · unfold find_existing_id
    rw [hg, hp]
    simp

/-- Witness for C10: an empty gas id falls back to the pressure-only match
on a concrete store. -/
theorem empty_identifier_treated_as_missing_witness :
    (truthy (some "") = false ∧ truthy (none : Option String) = false) ∧
    (find_existing_id [exRowA] (some "") (some "") = none ∧
     find_existing_id [exRowA] (some "") (some "")
       = find_existing_id [exRowB] (some "") (some "")) :=
  ⟨⟨rfl, rfl⟩,
   (empty_identifier_treated_as_missing [exRowA] [exRowB] (some "") (some "")).2.2
     rfl rfl⟩

/-- Auxiliary: staging never changes the visible pending view. -/
theorem stage_pair_pendingView (pair : String × String) (s : AppState) :
    (stage_pair pair s).pendingView = s.pendingView := by
  unfold stage_pair
  split_ifs <;> rfl

/-- Auxiliary: membership in the promoted set after staging. -/
theorem stage_pair_staged_mem (pair q : String × String) (s : AppState) :
    q ∈ (stage_pair pair s).staged_pairs ↔ q = pair ∨ q ∈ s.staged_pairs := by
  unfold stage_pair
  split_ifs with h
  · constructor
    · exact Or.inr
    · rintro (rfl | hq)
      · exact h
      · exact hq
  · simp

/-- C5: reload_all never recomputes, filters or clears the Staging Registry,
so a freshly staged pair survives a reload: both new_ids and _staged_pairs
are carried over unchanged, and the staged pair is still listed (membership
in new_ids uses the invariant that the promoted set and the staged entries
track the same pairs). -/
theorem reload_preserves_staging (it : PendingItem) (s : AppState)
    (loadFails : Bool) (loaded : List Row)
    (hsync : ∀ q, q ∈ s.staged_pairs ↔ q ∈ s.new_ids) :
    ((reload_all loadFails loaded (toggle_check_pending it s)).2).new_ids
        = (toggle_check_pending it s).new_ids ∧
    ((reload_all loadFails loaded (toggle_check_pending it s)).2).staged_pairs
        = (toggle_check_pending it s).staged_pairs ∧
    it.pair ∈ ((reload_all loadFails loaded (toggle_check_pending it s)).2).staged_pairs ∧
    it.pair ∈ ((reload_all loadFails loaded (toggle_check_pending it s)).2).new_ids := by
  have hmemS : it.pair ∈ (toggle_check_pending it s).staged_pairs := by
    unfold toggle_check_pending stage_pair
    split_ifs with h
    · simpa using h
    · simp
  have hmemN : it.pair ∈ (toggle_check_pending it s).new_ids := by
    unfold toggle_check_pending stage_pair
    split_ifs with h
    · simpa using (hsync it.pair).mp h
    · simp
  unfold reload_all
  split_ifs with hl
  · exact ⟨rfl, rfl, hmemS, hmemN⟩
  · exact ⟨rfl, rfl, hmemS, hmemN⟩

/-- Witness for C5: a staged pair survives a reload on a concrete state. -/
theorem reload_preserves_staging_witness :
    (∀ q : String × String, q ∈ exInitState.staged_pairs ↔ q ∈ exInitState.new_ids) ∧
    PendingItem.pair { iid := 7, pair := ("G1", "P1") }
      ∈ ((reload_all false [pendingRow]
          (toggle_check_pending { iid := 7, pair := ("G1", "P1") } exInitState)).2).new_ids :=
  ⟨fun q => Iff.rfl,
   (reload_preserves_staging { iid := 7, pair := ("G1", "P1") } exInitState false
     [pendingRow] (fun q => Iff.rfl)).2.2.2⟩

/-- C6: staging an already staged pair is a no-op on the whole state, hence
staging is idempotent, and under the registry consistency invariant the
ordered staged entries never hold more than one entry for a pair. -/
theorem stage_idempotent (pair : String × String) (s : AppState) :
    stage_pair pair (stage_pair pair s) = stage_pair pair s ∧
    (pair ∈ s.staged_pairs → stage_pair pair s = s) ∧
    ((∀ q, q ∈ s.staged_pairs ↔ q ∈ s.new_ids) → s.new_ids.count pair ≤ 1 →
      (stage_pair pair s).new_ids.count pair ≤ 1) := by
  refine ⟨?_, fun h => by simp [stage_pair, h], fun hsync hcount => ?_⟩
  · by_cases h : pair ∈ s.staged_pairs
    · simp [stage_pair, h]
    · simp [stage_pair, h]
  · by_cases h : pair ∈ s.staged_pairs
    · simpa [stage_pair, h] using hcount
    · have hz : s.new_ids.count pair = 0 :=
        List.count_eq_zero.mpr fun hm => h ((hsync pair).mpr hm)
      simp [stage_pair, h, List.count_append, hz]

/-- Witness for C6: staging a pair already held by a concrete registry
changes nothing. -/
theorem stage_idempotent_witness :
    (("G1", "P1") ∈ exSyncedState.staged_pairs) ∧
    stage_pair ("G1", "P1") exSyncedState = exSyncedState :=
  ⟨by decide, (stage_idempotent ("G1", "P1") exSyncedState).2.1 (by decide)⟩

/-- C4 counterexample: after staging the single pending pair and reloading
from the unchanged store, the pair is simultaneously tracked by the Staging
Registry and displayed as a pending row, so the claimed steady-state
disjointness fails. -/
theorem staged_pending_not_disjoint_counterexample :
    ("G1", "P1") ∈ exReloadedState.staged_pairs ∧
    ("G1", "P1") ∈ exReloadedState.pendingView.map PendingItem.pair ∧
    ¬ pendingDisjoint exReloadedState := by
  refine ⟨by decide, by decide, fun h => ?_⟩
  exact (h { iid := 7, pair := ("G1", "P1") } (by decide)) (by decide)

/-- C4 (amended): staging itself preserves disjointness: checking a pending
row removes it from the pending view, and when no two visible pending rows
share an identifier pair the staged pair no longer appears among them; the
invariant is only broken by reload_all, which rebuilds the pending view from
every blank-well-name store row without excluding staged pairs. -/
theorem stage_preserves_pending_disjointness (it : PendingItem) (s : AppState)
    (hd : pendingDisjoint s) (hmem : it ∈ s.pendingView)
    (hnodup : (s.pendingView.map PendingItem.pair).Nodup) :
    pendingDisjoint (toggle_check_pending it s) := by
  intro it2 h2
  have hview : (toggle_check_pending it s).pendingView
      = s.pendingView.filter (fun x => x.iid != it.iid) := by
    simp only [toggle_check_pending, stage_pair_pendingView]
  have hstg : (toggle_check_pending it s).staged_pairs
      = (stage_pair it.pair s).staged_pairs := rfl
  rw [hview] at h2
  obtain ⟨hmem2, hne⟩ := List.mem_filter.mp h2
  rw [hstg]
  intro hin
  rcases (stage_pair_staged_mem it.pair it2.pair s).mp hin with heq | hold
  · have : it2 = it := List.inj_on_of_nodup_map hnodup hmem2 hmem heq
    rw [this] at hne
    simp at hne
  · exact hd it2 hmem2 hold

/-- Witness for C4 (amended): staging the pending row of a concrete state
with an empty registry keeps the two sets disjoint. -/
theorem stage_preserves_pending_disjointness_witness :
    ({ iid := 7, pair := ("G1", "P1") } : PendingItem) ∈ exInitState.pendingView ∧
    pendingDisjoint (toggle_check_pending { iid := 7, pair := ("G1", "P1") } exInitState) :=
  ⟨by decide,
   stage_preserves_pending_disjointness { iid := 7, pair := ("G1", "P1") } exInitState
     (fun it2 _ hin => absurd hin (List.not_mem_nil _)) (by decide) (by decide)⟩

/-- Auxiliary: lookup misses a list whose keys all differ from the key. -/
theorem lookup_eq_none_of_keys_ne {β : Type} (k : String) (l : List (String × β))
    (h : ∀ kv ∈ l, kv.1 ≠ k) : List.lookup k l = none := by
  induction l with
  | nil => rfl
  | cons kv l ih =>
      obtain ⟨a, b⟩ := kv
      have hk : (k == a) = false :=
        beq_eq_false_iff_ne.mpr fun he => h (a, b) (by simp) (by simp [he])
      rw [List.lookup_cons, hk]
      exact ih fun kv2 hm => h kv2 (by simp [hm])

/-- Auxiliary: lookup skips an initial segment that it misses. -/
theorem lookup_append_left_none {β : Type} (k : String) (l1 l2 : List (String × β))
    (h : List.lookup k l1 = none) :
    List.lookup k (l1 ++ l2) = List.lookup k l2 := by
  induction l1 with
  | nil => rfl
  | cons kv l ih =>
      obtain ⟨a, b⟩ := kv
      cases hk : (k == a) with
      | true =>
          rw [List.lookup_cons, hk] at h
          exact absurd h (by simp)
      | false =>
          rw [List.cons_append, List.lookup_cons, hk]
          rw [List.lookup_cons, hk] at h
          exact ih h

/-- Auxiliary: the Composite name key never survives the EDITABLE_FIELDS
filter applied by save_checked_edits. -/
theorem lookup_composite_safe_none (payload : Payload) :
    List.lookup "Composite name"
      (payload.filter fun kv => EDITABLE_FIELDS.contains kv.1) = none := by
  apply lookup_eq_none_of_keys_ne
  intro kv hm heq
  have hc := (List.mem_filter.mp hm).2
  rw [heq] at hc
  exact absurd hc (by decide)

/-- Auxiliary: the value or None idiom inverts the comp_var display value
back to exactly the compose_name result. -/
theorem orNone_comp_var (w l t : String) :
    orNone (comp_var_value w l t) = compose_name (some w) (some l) (some t) := by
  unfold comp_var_value
  cases h : compose_name (some w) (some l) (some t) with
  | none => simp [orNone]
  | some c =>
      have hne : c ≠ "" := fun hc =>
        compose_name_ne_some_empty (some w) (some l) (some t) (hc ▸ h)
      simp [orNone, hne]

/-- Auxiliary: lookup misses a mapped association list whose original keys
avoid the key. -/
theorem lookup_map_strip_none (k : String) (l : List (String × String))
    (h : k ∉ l.map Prod.fst) :
    List.lookup k (l.map fun cv => (cv.1, orNone (strip cv.2))) = none := by
  apply lookup_eq_none_of_keys_ne
  intro kv hm heq
  obtain ⟨cv, hcv, rfl⟩ := List.mem_map.mp hm
  apply h
  rw [← heq]
  exact List.mem_map_of_mem Prod.fst hcv

/-- C3 counterexample: a checked row of a concrete store whose pending edit
clears the Well Name.  The recomputed composite is absent, yet after
save_checked_edits the persisted Composite name still holds the stale value
from before the edit instead of null, while the Well Name itself was
updated. -/
theorem composite_stale_counterexample :
    ((save_checked_edits (cleanEnv [cRow]) [cItem]).store.map fun r => r.cell "Well Name")
        = [none] ∧
    compose_name none (some "X") (some "Y") = none ∧
    ((save_checked_edits (cleanEnv [cRow]) [cItem]).store.map fun r => r.cell "Composite name")
        = [some "Old - X - Y"] ∧
    (save_checked_edits (cleanEnv [cRow]) [cItem]).result
        = .ok (.done 1 0) :=
  ⟨by decide, by decide, by decide, rfl⟩

/-- C3 (amended): on the save-checked-edits path the composite is recomputed
from the current inputs on every save, but persisted only when the
recomputation yields a value: when it is absent the Composite name column is
omitted from the update payload, so the previously stored composite (stale
or not) is left in place; on the add-new path the recomputed composite is
always persisted, stored as null when absent. -/
theorem composite_recompute_amended :
    (∀ (payload : Payload) (tw tl tt c : String),
        compose_name ((List.lookup "Well Name" payload).getD (some tw))
            ((List.lookup "Layer Producer" payload).getD (some tl))
            ((List.lookup "Completions Technology" payload).getD (some tt)) = some c →
        List.lookup "Composite name" (save_row_payload payload tw tl tt)
          = some (some c)) ∧
    (∀ (payload : Payload) (tw tl tt : String),
        compose_name ((List.lookup "Well Name" payload).getD (some tw))
            ((List.lookup "Layer Producer" payload).getD (some tl))
            ((List.lookup "Completions Technology" payload).getD (some tt)) = none →
        phas (save_row_payload payload tw tl tt) "Composite name" = false ∧
        (∀ (store : List Row) (rid j : Nat),
          ((update_record store rid (save_row_payload payload tw tl tt))[j]?.map
              fun r => r.cell "Composite name")
            = (store[j]?.map fun r => r.cell "Composite name"))) ∧
    (∀ (gas pres : Option String) (entries dropdowns : List (String × String))
        (w l t : String),
        "Composite name" ∉ entries.map Prod.fst →
        "Composite name" ∉ dropdowns.map Prod.fst →
        List.lookup "Composite name"
            (add_row_payload gas pres entries dropdowns (comp_var_value w l t))
          = some (compose_name (some w) (some l) (some t))) := by
  refine ⟨fun payload tw tl tt c h => ?_, fun payload tw tl tt h => ?_,
    fun gas pres entries dropdowns w l t he hd => ?_⟩
  · simp only [save_row_payload]
    rw [h]
    rw [lookup_append_left_none _ _ _ (lookup_composite_safe_none payload)]
    rw [List.lookup_cons]
    simp
  · have hnone : List.lookup "Composite name" (save_row_payload payload tw tl tt)
        = none := by
      simp only [save_row_payload]
      rw [h]
      exact lookup_composite_safe_none payload
    refine ⟨by simp [phas, hnone], fun store rid j => ?_⟩
    apply update_record_preserves_col
    intro hmem
    have hph := (List.mem_filter.mp hmem).2
    simp [phas, hnone] at hph
  · unfold add_row_payload
    have la : List.lookup "Composite name"
        ([("GasIDREC", gas), ("PressuresIDREC", pres)] : Payload) = none := rfl
    have lb := lookup_map_strip_none "Composite name" entries he
    have lc := lookup_map_strip_none "Composite name" dropdowns hd
    have hab : List.lookup "Composite name"
        (([("GasIDREC", gas), ("PressuresIDREC", pres)] : Payload)
          ++ entries.map fun cv => (cv.1, orNone (strip cv.2))) = none := by
      rw [lookup_append_left_none _ _ _ la]
      exact lb
    have habc : List.lookup "Composite name"
        ((([("GasIDREC", gas), ("PressuresIDREC", pres)] : Payload)
          ++ entries.map fun cv => (cv.1, orNone (strip cv.2)))
          ++ dropdowns.map fun cv => (cv.1, orNone (strip cv.2))) = none := by
      rw [lookup_append_left_none _ _ _ hab]
      exact lc
    rw [lookup_append_left_none _ _ _ habc, List.lookup_cons]
    simp [orNone_comp_var]

/-- Witness for C3 (amended): an empty edit payload with complete displayed
inputs persists the freshly recomputed composite. -/
theorem composite_recompute_amended_witness :
    (compose_name ((List.lookup "Well Name" ([] : Payload)).getD (some "A"))
        ((List.lookup "Layer Producer" ([] : Payload)).getD (some "B"))
        ((List.lookup "Completions Technology" ([] : Payload)).getD (some "C"))
      = some "A - B - C") ∧
    List.lookup "Composite name" (save_row_payload [] "A" "B" "C")
      = some (some "A - B - C") :=
  ⟨by decide, composite_recompute_amended.1 [] "A" "B" "C" "A - B - C" (by decide)⟩

/-- Auxiliary: with fault-free duplicate-name queries the guard never
faults. -/
theorem dup_check_no_fault (env : Env) (store : List Row) (wn : Option String)
    (hdup : ∀ s, env.dupFails s = false) :
    (dup_check env store wn).1 ≠ DupCheck.dupFault := by
  unfold dup_check
  by_cases h1 : truthy wn
  · rw [if_pos h1]
    simp only [hdup, Bool.false_eq_true, if_false]
    split_ifs <;> simp
  · rw [if_neg h1]
    simp

/-- Auxiliary: with fault-free identifier-pair lookups the record-id
resolution of save_checked_edits never faults. -/
theorem resolve_rec_id_ok (env : Env) (store : List Row) (it : SaveItem)
    (hfind : ∀ g p, env.findFails g p = false) :
    ∃ recOpt, resolve_rec_id env store it = .ok recOpt := by
  unfold resolve_rec_id
  cases it.iidNat
  · rw [hfind]
    simp
  · simp

/-- Auxiliary: the save loop reports an outcome whenever identifier-pair
lookups cannot fault, for any update faults. -/
theorem save_loop_no_uncaught (env : Env)
    (hfind : ∀ g p, env.findFails g p = false) (items : List SaveItem) :
    ∀ store updated failed,
      ∃ o, (save_loop env items store updated failed).result = .ok o := by
  induction items with
  | nil => exact fun store u f => ⟨_, rfl⟩
  | cons it rest ih =>
      intro store u f
      obtain ⟨recOpt, hr⟩ := resolve_rec_id_ok env store it hfind
      simp only [save_loop, hr]
      by_cases hid : truthyId recOpt
      · rw [if_pos hid]
        by_cases hupd : env.updateFails (recOpt.getD 0)
        · rw [if_pos hupd]
          exact ⟨_, rfl⟩
        · rw [if_neg hupd]
          exact ih _ _ _
      · rw [if_neg hid]
        exact ih _ _ _

/-- Auxiliary: the classification loop of do_update reports an outcome
whenever the duplicate-name and identifier-pair queries cannot fault, for
any update or insert faults. -/
theorem do_update_loop_no_uncaught (env : Env)
    (hfind : ∀ g p, env.findFails g p = false)
    (hdup : ∀ s, env.dupFails s = false)
    (rows : List Payload) :
    ∀ store updated skipped toInsert,
      ∃ o, (do_update_loop env rows store updated skipped toInsert).result = .ok o := by
  induction rows with
  | nil =>
      intro store u s ti
      unfold do_update_loop
      split_ifs
      · exact ⟨_, rfl⟩
      · exact ⟨_, rfl⟩
      · exact ⟨_, rfl⟩
  | cons r rest ih =>
      intro store u s ti
      rcases hdc : dup_check env store (pget r "Well Name") with ⟨v, evs⟩
      have hnf := dup_check_no_fault env store (pget r "Well Name") hdup
      rw [hdc] at hnf
      simp only [do_update_loop, hdc]
      cases v with
      | dupFault => exact absurd rfl hnf
      | dupSkip => exact ih _ _ _ _
      | dupProceed =>
          rw [hfind]
          simp only [Bool.false_eq_true, if_false]
          by_cases hid : truthyId
              (find_existing_id store (pget r "GasIDREC") (pget r "PressuresIDREC"))
          · rw [if_pos hid]
            by_cases hupd : env.updateFails
                ((find_existing_id store (pget r "GasIDREC")
                  (pget r "PressuresIDREC")).getD 0)
            · rw [if_pos hupd]
              exact ⟨_, rfl⟩
            · rw [if_neg hupd]
              exact ih _ _ _ _
          · rw [if_neg hid]
            exact ih _ _ _ _

/-- C9 counterexample: identifier-pair lookup faults and duplicate-name
lookup faults are not caught inside do_update or save_checked_edits: they
surface as uncaught store faults instead of being reported as outcomes. -/
theorem lookup_fault_uncaught_counterexample :
    (do_update faultyFindEnv [[("GasIDREC", some "G1")]]).result
        = .error .findFault ∧
    (do_update faultyDupEnv [[("Well Name", some "W")]]).result
        = .error .dupQueryFault ∧
    (save_checked_edits faultyFindEnv [exFallbackItem]).result
        = .error .findFault :=
  ⟨rfl, rfl, rfl⟩

/-- C9 (amended): load errors in reload_all are caught and reported, and
save_checked_edits and do_update report an outcome for every run in which
the connection, duplicate-name and identifier-pair queries do not fault,
whatever update or insert faults occur; connection, duplicate-name-lookup
and identifier-pair-lookup faults, however, propagate uncaught. -/
theorem store_errors_caught_amended :
    (∀ (loadFails : Bool) (loaded : List Row) (s : AppState),
        ((reload_all loadFails loaded s).1 = ReloadOutcome.loadError ↔ loadFails = true)) ∧
    (∀ (env : Env) (items : List SaveItem), env.connectFails = false →
        (∀ g p, env.findFails g p = false) →
        ∃ o, (save_checked_edits env items).result = .ok o) ∧
    (∀ (env : Env) (rows : List Payload), env.connectFails = false →
        (∀ g p, env.findFails g p = false) → (∀ n, env.dupFails n = false) →
        ∃ o, (do_update env rows).result = .ok o) := by
  refine ⟨fun lf loaded s => ?_, fun env items hc hf => ?_, fun env rows hc hf hd => ?_⟩
  · unfold reload_all
    split_ifs with h <;> simp [h]
  · unfold save_checked_edits
    rw [if_neg (by simp [hc])]
    exact save_loop_no_uncaught env hf items env.store 0 0
  · unfold do_update
    split_ifs with h1 h2
    · exact ⟨_, rfl⟩
    · rw [hc] at h2
      exact absurd h2 (by simp)
    · exact do_update_loop_no_uncaught env hf hd rows env.store 0 0 []

/-- Witness for C9 (amended) on a fault-free environment with one staged
row. -/
theorem store_errors_caught_amended_witness :
    ((cleanEnv []).connectFails = false) ∧
    (∃ o, (do_update (cleanEnv []) [[("GasIDREC", some "G1")]]).result = .ok o) :=
  ⟨rfl,
   store_errors_caught_amended.2.2 (cleanEnv []) [[("GasIDREC", some "G1")]] rfl
     (fun g p => rfl) (fun n => rfl)⟩

@[simp] theorem isInsertEv_dup (s : String) : isInsertEv (Ev.evDupQuery s) = false := rfl
@[simp] theorem isInsertEv_find (g p : Option String) : isInsertEv (Ev.evFindQuery g p) = false := rfl
@[simp] theorem isInsertEv_cls (g p : Option String) (d : Decision) :
    isInsertEv (Ev.evClassified g p d) = false := rfl
@[simp] theorem isInsertEv_upd (i : Nat) : isInsertEv (Ev.evUpdateExec i) = false := rfl
@[simp] theorem isInsertEv_ins (n : Nat) : isInsertEv (Ev.evInsertExec n) = true := rfl
@[simp] theorem isInsertEv_commit : isInsertEv Ev.evCommit = false := rfl
@[simp] theorem isClassifiedEv_dup (s : String) : isClassifiedEv (Ev.evDupQuery s) = false := rfl
@[simp] theorem isClassifiedEv_find (g p : Option String) :
    isClassifiedEv (Ev.evFindQuery g p) = false := rfl
@[simp] theorem isClassifiedEv_cls (g p : Option String) (d : Decision) :
    isClassifiedEv (Ev.evClassified g p d) = true := rfl
@[simp] theorem isClassifiedEv_upd (i : Nat) : isClassifiedEv (Ev.evUpdateExec i) = false := rfl
@[simp] theorem isClassifiedEv_ins (n : Nat) : isClassifiedEv (Ev.evInsertExec n) = false := rfl
@[simp] theorem isClassifiedEv_commit : isClassifiedEv Ev.evCommit = false := rfl

/-- Auxiliary: a trace without insert events satisfies the ordering
property for any count. -/
theorem insAfter_no_insert (tr : List Ev) (k : Nat)
    (h : tr.countP isInsertEv = 0) : InsAfter tr k := by
  constructor
  · omega
  · intro n hn
    have hpos : 0 < tr.countP isInsertEv := List.countP_pos_iff.mpr ⟨_, hn, by simp⟩
    omega

/-- Auxiliary: the trace of a bare batched insert. -/
theorem insAfter_single_insert (n : Nat) : InsAfter [Ev.evInsertExec n] 0 :=
  ⟨by simp, fun m hm => ⟨by simp, by simp [List.takeWhile_cons]⟩⟩

/-- Auxiliary: the trace of a batched insert followed by the commit. -/
theorem insAfter_insert_commit (n : Nat) : InsAfter [Ev.evInsertExec n, Ev.evCommit] 0 :=
  ⟨by simp, fun m hm => ⟨by simp, by simp [List.takeWhile_cons]⟩⟩

/-- Auxiliary: prefixing a non-insert non-classification event preserves
the ordering property. -/
theorem insAfter_cons_other (e : Ev) (tr : List Ev) (k : Nat)
    (hi : isInsertEv e = false) (hc : isClassifiedEv e = false)
    (h : InsAfter tr k) : InsAfter (e :: tr) k := by
  obtain ⟨h1, h2⟩ := h
  refine ⟨by simpa [List.countP_cons, hi] using h1, fun n hn => ?_⟩
  rcases List.mem_cons.mp hn with he | hmem
  · rw [← he] at hi
    simp at hi
  · obtain ⟨hk1, hk2⟩ := h2 n hmem
    constructor
    · simp [List.countP_cons, hc, hk1]
    · rw [List.takeWhile_cons, if_pos (by simp [hi])]
      simp [List.countP_cons, hc, hk2]

/-- Auxiliary: prefixing a classification event raises the classified
count by one. -/
theorem insAfter_cons_classified (e : Ev) (tr : List Ev) (k : Nat)
    (hi : isInsertEv e = false) (hc : isClassifiedEv e = true)
    (h : InsAfter tr k) : InsAfter (e :: tr) (k + 1) := by
  obtain ⟨h1, h2⟩ := h
  refine ⟨by simpa [List.countP_cons, hi] using h1, fun n hn => ?_⟩
  rcases List.mem_cons.mp hn with he | hmem
  · rw [← he] at hi
    simp at hi
  · obtain ⟨hk1, hk2⟩ := h2 n hmem
    constructor
    · simp [List.countP_cons, hc, hk1]
    · rw [List.takeWhile_cons, if_pos (by simp [hi])]
      simp [List.countP_cons, hc, hk2]

/-- Auxiliary: the duplicate-name guard issues at most one COUNT query and
nothing else. -/
theorem dup_check_shape (env : Env) (store : List Row) (wn : Option String) :
    (dup_check env store wn).2 = [] ∨
      ∃ s, (dup_check env store wn).2 = [Ev.evDupQuery s] := by
  unfold dup_check
  by_cases h1 : truthy wn
  · rw [if_pos h1]
    split_ifs <;> exact Or.inr ⟨_, rfl⟩
  · rw [if_neg h1]
    exact Or.inl rfl

/-- Auxiliary: every run of the classification loop satisfies the
single-insert-after-classification ordering, whatever the store contents,
fault injection and accumulators. -/
theorem do_update_loop_insert_once (env : Env) (rows : List Payload) :
    ∀ store updated skipped toInsert,
      InsAfter (do_update_loop env rows store updated skipped toInsert).trace rows.length := by
  induction rows with
  | nil =>
      intro store u s ti
      unfold do_update_loop
      split_ifs
      · exact insAfter_no_insert _ _ (by simp)
      · exact insAfter_single_insert _
      · exact insAfter_insert_commit _
  | cons r rest ih =>
      intro store u s ti
      simp only [do_update_loop]
      split
      · rename_i evs heq
        rcases dup_check_shape env store (pget r "Well Name") with hsh | ⟨s0, hsh⟩ <;>
          rw [heq] at hsh <;> simp only [] at hsh <;> subst hsh
        · exact insAfter_no_insert _ _ (by simp)
        · exact insAfter_no_insert _ _ (by simp)
      · rename_i evs heq
        rcases dup_check_shape env store (pget r "Well Name") with hsh | ⟨s0, hsh⟩ <;>
          rw [heq] at hsh <;> simp only [] at hsh <;> subst hsh
        · simpa using insAfter_cons_classified _ _ _ (by simp) (by simp)
            (ih store u (s + 1) ti)
        · simpa using insAfter_cons_other _ _ _ (by simp) (by simp)
            (insAfter_cons_classified _ _ _ (by simp) (by simp)
              (ih store u (s + 1) ti))
      · rename_i evs heq
        rcases dup_check_shape env store (pget r "Well Name") with hsh | ⟨s0, hsh⟩ <;>
          rw [heq] at hsh <;> simp only [] at hsh <;> subst hsh <;>
          split_ifs with hff hid hupd
        · exact insAfter_no_insert _ _ (by simp)
        · exact insAfter_no_insert _ _ (by simp)
        · simpa using insAfter_cons_other _ _ _ (by simp) (by simp)
            (insAfter_cons_classified _ _ _ (by simp) (by simp)
              (insAfter_cons_other _ _ _ (by simp) (by simp)
                (ih _ (u + 1) s ti)))
        · simpa using insAfter_cons_other _ _ _ (by simp) (by simp)
            (insAfter_cons_classified _ _ _ (by simp) (by simp)
              (ih store u s (ti ++ [r])))
        · exact insAfter_no_insert _ _ (by simp)
        · exact insAfter_no_insert _ _ (by simp)
        · simpa using insAfter_cons_other _ _ _ (by simp) (by simp)
            (insAfter_cons_other _ _ _ (by simp) (by simp)
              (insAfter_cons_classified _ _ _ (by simp) (by simp)
                (insAfter_cons_other _ _ _ (by simp) (by simp)
                  (ih _ (u + 1) s ti))))
        · simpa using insAfter_cons_other _ _ _ (by simp) (by simp)
            (insAfter_cons_other _ _ _ (by simp) (by simp)
              (insAfter_cons_classified _ _ _ (by simp) (by simp)
                (ih store u s (ti ++ [r]))))

/-- C8: within one do_update action the batched insert statement executes
at most once, and when it executes, every selected row of the action has
already been classified: the number of classification events preceding the
insert equals the number of selected rows, and no classification happens
after it. -/
theorem batched_insert_once_after_classification (env : Env) (rows : List Payload) :
    ((do_update env rows).trace.countP isInsertEv ≤ 1) ∧
    (∀ n, Ev.evInsertExec n ∈ (do_update env rows).trace →
      ((do_update env rows).trace.countP isClassifiedEv = rows.length ∧
       ((do_update env rows).trace.takeWhile fun e => !isInsertEv e).countP isClassifiedEv
          = rows.length)) := by
  have h : InsAfter (do_update env rows).trace rows.length := by
    unfold do_update
    split_ifs
    · exact insAfter_no_insert _ _ (by simp)
    · exact insAfter_no_insert _ _ (by simp)
    · exact do_update_loop_insert_once env rows env.store 0 0 []
  exact h

/-- Witness for C8: a one-row action on an empty store executes its insert
after the single classification. -/
theorem batched_insert_once_after_classification_witness :
    (Ev.evInsertExec 1 ∈ (do_update (cleanEnv []) [[("GasIDREC", some "G1")]]).trace) ∧
    ((do_update (cleanEnv []) [[("GasIDREC", some "G1")]]).trace.countP isClassifiedEv
        = 1 ∧
     ((do_update (cleanEnv []) [[("GasIDREC", some "G1")]]).trace.takeWhile
        fun e => !isInsertEv e).countP isClassifiedEv = 1) :=
  ⟨by decide,
   (batched_insert_once_after_classification (cleanEnv []) [[("GasIDREC", some "G1")]]).2
     1 (by decide)⟩

end WMUpdater
